import Mathlib

/-!
Shallow embedding of the doxybook2 document-tree traversal, filtering,
naming and output-dispatch engine (src/Doxybook/Generator.cpp,
src/Doxybook/Utils.cpp, include/Doxybook/Generator.hpp), together with
proofs settling the frozen claims about it.
-/

namespace Doxybook2

/-- The closed `Kind` enumeration, restricted to the eleven kinds handled by
`Generator::kindToTemplateName` and the generator's traversals. -/
inductive Kind where
  | STRUCT
  | CLASS
  | UNION
  | INTERFACE
  | NAMESPACE
  | MODULE
  | DIR
  | FILE
  | PAGE
  | EXAMPLE
  | JAVAENUM
deriving DecidableEq, Repr

/-- The coarse `FolderCategory` (`Type`) enumeration returned by `Node::getType`,
used for folder placement and naming-collision scoping. -/
inductive FolderCategory where
  | MODULES
  | NAMESPACES
  | CLASSES
  | FILES
  | PAGES
  | EXAMPLES
deriving DecidableEq, Repr

mutual
/-- A node of the externally supplied, read-only document tree (spec section 3):
`refid` is the stable identity, `category` models `Node::getType`, `fileOrDir`
models the upstream predicate `Node::isFileOrDir`. -/
inductive Node where
  | mk (refid name title qualifiedName url : String) (kind : Kind)
      (category : FolderCategory) (fileOrDir : Bool) (children : NodeList)

/-- The ordered sequence of exclusively owned children of a node. -/
inductive NodeList where
  | nil
  | cons (head : Node) (tail : NodeList)
end

def Node.refid : Node → String
  | .mk r _ _ _ _ _ _ _ _ => r

def Node.name : Node → String
  | .mk _ n _ _ _ _ _ _ _ => n

def Node.title : Node → String
  | .mk _ _ t _ _ _ _ _ _ => t

def Node.qualifiedName : Node → String
  | .mk _ _ _ q _ _ _ _ _ => q

def Node.url : Node → String
  | .mk _ _ _ _ u _ _ _ _ => u

def Node.kind : Node → Kind
  | .mk _ _ _ _ _ k _ _ _ => k

def Node.category : Node → FolderCategory
  | .mk _ _ _ _ _ _ c _ _ => c

def Node.isFileOrDir : Node → Bool
  | .mk _ _ _ _ _ _ _ f _ => f

def Node.children : Node → NodeList
  | .mk _ _ _ _ _ _ _ _ cs => cs

/-- The run configuration consumed by the generator (read-only here):
output directory, file extension, folder grouping, wiki naming, the
designated main page, the file-extension allow-list, the per-kind template
names, and the category-derived folder names (`typeToFolderName`). -/
structure Config where
  fileExt : String
  outputDir : String
  useFolders : Bool
  useWikiNamingConventions : Bool
  mainPageName : String
  filesFilter : List String
  folderNames : FolderCategory → String
  templateKindStruct : String
  templateKindInterface : String
  templateKindUnion : String
  templateKindClass : String
  templateKindNamespace : String
  templateKindGroup : String
  templateKindDir : String
  templateKindFile : String
  templateKindPage : String
  templateKindExample : String
  templateKindJavaEnum : String

namespace Utils

/-- One step of the scan loop of `Utils::wikiSafeFileName`: keep alphanumerics
and `_ . + -`, percent-encode `: < > * ? | "`, drop everything else. -/
def encodeChar (c : Char) : List Char :=
  if c.isAlphanum || c = '_' || c = '.' || c = '+' then [c]
  else if c = '-' then [c]
  else if c = ':' then ['%', '3', 'A']
  else if c = '<' then ['%', '3', 'C']
  else if c = '>' then ['%', '3', 'E']
  else if c = '*' then ['%', '2', 'A']
  else if c = '?' then ['%', '3', 'F']
  else if c = '|' then ['%', '7', 'C']
  else if c = '"' then ['%', '2', '2']
  else []

/-- The `result = result.substr(1)` step: remove one leading period. -/
def stripLeadingDot (l : List Char) : List Char :=
  if l.head? = some '.' then l.tail else l

/-- The `result.substr(0, length - 1)` step: remove one trailing period. -/
def stripTrailingDot (l : List Char) : List Char :=
  if l ≠ [] ∧ l.getLast? = some '.' then l.dropLast else l

/-- The final truncation of `Utils::wikiSafeFileName` to 200 characters. -/
def truncate200 (l : List Char) : List Char :=
  if l.length > 200 then l.take 200 else l

/-- `Utils::wikiSafeFileName`: replace spaces with hyphens, scan with
`encodeChar`, strip one leading and one trailing period, truncate to 200. -/
def wikiSafeFileName (s : String) : String :=
  let replaced := s.data.map (fun c => if c = ' ' then '-' else c)
  let scanned := replaced.flatMap encodeChar
  String.mk (truncate200 (stripTrailingDot (stripLeadingDot scanned)))

/-- The loop of `Utils::stripNamespace`: a depth counter over `()`, `[]`, `<>`;
each `.` or `:` seen at depth zero records the position just past it. -/
def stripNamespaceLoop : List Char → Int → Nat → Option Nat → Option Nat
  | [], _, _, off => off
  | c :: rest, inside, count, off =>
    if c = '(' ∨ c = '[' ∨ c = '<' then
      stripNamespaceLoop rest (inside + 1) (count + 1) off
    else if c = ')' ∨ c = ']' ∨ c = '>' then
      stripNamespaceLoop rest (inside - 1) (count + 1) off
    else if c = '.' ∨ c = ':' then
      stripNamespaceLoop rest inside (count + 1) (if inside = 0 then some (count + 1) else off)
    else
      stripNamespaceLoop rest inside (count + 1) off

/-- `Utils::stripNamespace`: the substring after the last top-level `.` or `:`. -/
def stripNamespace (s : String) : String :=
  match stripNamespaceLoop s.data 0 0 none with
  | some off => String.mk (s.data.drop off)
  | none => s

end Utils

/-- Position just past the last `/` of a character list, if any. -/
def lastSlashCut (l : List Char) : List Char :=
  (l.foldl (fun acc c => if c = '/' then [] else acc ++ [c]) [])

/-- Index of the last `.` in a character list, if any. -/
def lastDotPos (l : List Char) : Option Nat :=
  (l.enum.filter (fun p => p.2 = '.')).getLast?.map (·.1)

/-- Modelled behaviour of `std::filesystem::path(name).extension().string()`:
the substring of the filename component from its last dot, empty when there
is no dot, when the dot is the leading character, or for `.` and `..`. -/
def fileExtension (s : String) : String :=
  let base := lastSlashCut s.data
  if base = ['.'] ∨ base = ['.', '.'] then ""
  else
    match lastDotPos base with
    | none => ""
    | some 0 => ""
    | some i => String.mk (base.drop i)

/-- `Generator::shouldInclude`: a FILE node passes when the allow-list is
empty or contains the node's name's extension; every other kind passes. -/
def shouldInclude (cfg : Config) (node : Node) : Bool :=
  match node.kind with
  | .FILE =>
    if cfg.filesFilter.isEmpty then true
    else cfg.filesFilter.contains (fileExtension node.name)
  | _ => true

/-- Modelled from the spec: `Path::join` (Path.hpp is not part of the core
sources); joins two path components with a single separator. -/
def pathJoin (a b : String) : String :=
  if a = "" then b else a ++ "/" ++ b

/-- `Generator::kindToTemplateName`: the kind-indexed template-name lookup.
Total here because the embedded `Kind` enumeration carries exactly the kinds
the source handles; the source's `default` branch throws for others. -/
def kindToTemplateName (cfg : Config) : Kind → String
  | .STRUCT => cfg.templateKindStruct
  | .INTERFACE => cfg.templateKindInterface
  | .UNION => cfg.templateKindUnion
  | .CLASS => cfg.templateKindClass
  | .NAMESPACE => cfg.templateKindNamespace
  | .MODULE => cfg.templateKindGroup
  | .DIR => cfg.templateKindDir
  | .FILE => cfg.templateKindFile
  | .PAGE => cfg.templateKindPage
  | .EXAMPLE => cfg.templateKindExample
  | .JAVAENUM => cfg.templateKindJavaEnum

/-- The naming record `Generator::refidToWikiName`, kept in insertion order:
one `(refid, wikiName)` entry per resolved node. -/
abbrev WikiState := List (String × String)

/-- Lookup in the naming record by refid (`refidToWikiName.find`). -/
def lookupName (st : WikiState) (refid : String) : Option String :=
  (st.find? (fun e => e.1 == refid)).map (·.2)

/-- The collision scan of `Generator::getWikiFileName`: some already-resolved
entry has the identical name and its node, looked up through `doxygen.find`
(modelled by `find`), has the same category; unfound refids never collide. -/
def isDuplicate (find : String → Option FolderCategory) (st : WikiState)
    (name : String) (cat : FolderCategory) : Bool :=
  st.any (fun e => e.2 == name && find e.1 == some cat)

/-- The candidate tried at probe step `s`: `baseName + "-" + std::to_string(s)`. -/
def candName (base : String) (s : Nat) : String :=
  base ++ "-" ++ Nat.repr s

/-- The suffix-probing loop of `Generator::getWikiFileName`: try `base-s`,
`base-(s+1)`, ... until a candidate is free. `fuel` bounds the recursion; the
callers pass enough fuel for the loop to reach a free name. -/
def probeSuffix (find : String → Option FolderCategory) (st : WikiState)
    (cat : FolderCategory) (base : String) : Nat → Nat → String
  | 0, s => candName base s
  | fuel + 1, s =>
    let c := candName base s
    if isDuplicate find st c cat then probeSuffix find st cat base fuel (s + 1) else c

/-- The pre-collision candidate of `Generator::getWikiFileName`: sanitize the
qualified name for file/dir nodes, else title-or-name; fall back to the
sanitized refid when that is empty. -/
def wikiCandidate (node : Node) : String :=
  let nodeName :=
    if node.isFileOrDir then node.qualifiedName
    else if node.title ≠ "" then node.title else node.name
  let w := Utils.wikiSafeFileName nodeName
  if w = "" then Utils.wikiSafeFileName node.refid else w

/-- `Generator::getWikiFileName`: memoized per refid; otherwise resolve the
candidate, deduplicate against same-category entries by linear suffix
probing, store and return. -/
def getWikiFileName (find : String → Option FolderCategory) (node : Node)
    (st : WikiState) : String × WikiState :=
  match lookupName st node.refid with
  | some w => (w, st)
  | none =>
    let base := wikiCandidate node
    let final :=
      if isDuplicate find st base node.category then
        probeSuffix find st node.category base (st.length + 1) 1
      else base
    (final, st ++ [(node.refid, final)])

/-- `Generator::getWikiFileNameForRefid`: read-only lookup that falls back to
the refid itself when no entry exists. -/
def getWikiFileNameForRefid (st : WikiState) (refid : String) : String :=
  match lookupName st refid with
  | some w => w
  | none => refid

/-- One dispatched render call of `Generator::printRecursively`: the template
name, the output path handed to the renderer, and the refid of the node. -/
structure RenderedPage where
  template : String
  path : String
  refid : String
deriving DecidableEq, Repr

/-- Filename selection shared by the traversals: the wiki name when wiki
naming conventions are enabled, else the node's bare refid. -/
def chooseFileName (cfg : Config) (find : String → Option FolderCategory)
    (node : Node) (st : WikiState) : String × WikiState :=
  if cfg.useWikiNamingConventions then getWikiFileName find node st
  else (node.refid, st)

/-- Output-path selection of `Generator::printRecursively`: the main page is
written flat, otherwise nest under the category folder when folders are on. -/
def renderPath (cfg : Config) (node : Node) (filename : String) : String :=
  if node.kind == Kind.PAGE && node.refid == cfg.mainPageName then
    filename ++ "." ++ cfg.fileExt
  else if cfg.useFolders then
    pathJoin (cfg.folderNames node.category) (filename ++ "." ++ cfg.fileExt)
  else
    filename ++ "." ++ cfg.fileExt

mutual
/-- `Generator::printRecursively` on one node: walk its children. -/
def printRecursively (cfg : Config) (find : String → Option FolderCategory)
    (filter skip : List Kind) : WikiState → Node → WikiState × List RenderedPage
  | st, .mk _ _ _ _ _ _ _ _ children => printChildren cfg find filter skip st children

/-- The loop body of `Generator::printRecursively`: a child outside `filter`
is neither dispatched nor recursed into; a child inside `filter` is dispatched
when it is outside `skip` and `shouldInclude` holds, and is always recursed
into. -/
def printChildren (cfg : Config) (find : String → Option FolderCategory)
    (filter skip : List Kind) : WikiState → NodeList → WikiState × List RenderedPage
  | st, .nil => (st, [])
  | st, .cons c cs =>
    if filter.contains c.kind then
      let own :=
        if !(skip.contains c.kind) && shouldInclude cfg c then
          let fnst := chooseFileName cfg find c st
          (fnst.2, [RenderedPage.mk (kindToTemplateName cfg c.kind) (renderPath cfg c fnst.1) c.refid])
        else (st, ([] : List RenderedPage))
      let sub := printRecursively cfg find filter skip own.1 c
      let rest := printChildren cfg find filter skip sub.1 cs
      (rest.1, own.2 ++ sub.2 ++ rest.2)
    else printChildren cfg find filter skip st cs
end

/-- The error message raised by the JSON-writing passes when an output file
cannot be opened (`EXCEPTION("File {} failed to open for writing", path)`). -/
def openFailureMessage (path : String) : String :=
  "File " ++ path ++ " failed to open for writing"

/-- The per-node write of `Generator::jsonRecursively`: resolve the filename,
join it under the output directory, and either record the written path or
fail hard with `openFailureMessage`. `openOk` models whether the stream opens. -/
def jsonDispatch (cfg : Config) (find : String → Option FolderCategory)
    (openOk : String → Bool) (st : WikiState) (node : Node) :
    Except String (WikiState × List String) :=
  let fnst := chooseFileName cfg find node st
  let path := pathJoin cfg.outputDir (fnst.1 ++ ".json")
  if openOk path then .ok (fnst.2, [path]) else .error (openFailureMessage path)

mutual
/-- `Generator::jsonRecursively` on one node: walk its children. -/
def jsonRecursively (cfg : Config) (find : String → Option FolderCategory)
    (openOk : String → Bool) (filter skip : List Kind) :
    WikiState → Node → Except String (WikiState × List String)
  | st, .mk _ _ _ _ _ _ _ _ children => jsonChildren cfg find openOk filter skip st children

/-- The loop body of `Generator::jsonRecursively`, same gating as the render
pass; the first failed open aborts the whole traversal. -/
def jsonChildren (cfg : Config) (find : String → Option FolderCategory)
    (openOk : String → Bool) (filter skip : List Kind) :
    WikiState → NodeList → Except String (WikiState × List String)
  | st, .nil => .ok (st, [])
  | st, .cons c cs =>
    if filter.contains c.kind then
      match
        (if !(skip.contains c.kind) && shouldInclude cfg c then
          jsonDispatch cfg find openOk st c
        else .ok (st, [])) with
      | .error e => .error e
      | .ok own =>
        match jsonRecursively cfg find openOk filter skip own.1 c with
        | .error e => .error e
        | .ok sub =>
          match jsonChildren cfg find openOk filter skip sub.1 cs with
          | .error e => .error e
          | .ok rest => .ok (rest.1, own.2 ++ sub.2 ++ rest.2)
    else jsonChildren cfg find openOk filter skip st cs
end

mutual
/-- One record of `Generator::manifestRecursively`: kind, name, the title for
grouping kinds, the upstream url, and the recursively built children (absent,
not empty, when the subtree contributes nothing). -/
inductive ManifestNode where
  | mk (kind : Kind) (name : String) (title : Option String) (url : String)
      (children : Option ManifestForest)

inductive ManifestForest where
  | nil
  | cons (head : ManifestNode) (tail : ManifestForest)
end

def ManifestForest.isNil : ManifestForest → Bool
  | .nil => true
  | .cons _ _ => false

mutual
/-- `Generator::manifestRecursively` on one node. -/
def manifestRecursively (cfg : Config) : Node → ManifestForest
  | .mk _ _ _ _ _ _ _ _ children => manifestChildren cfg children

/-- The loop of `Generator::manifestRecursively`: unconditional over children
except for `shouldInclude`; the `children` key is attached only when the
recursive build is non-empty. -/
def manifestChildren (cfg : Config) : NodeList → ManifestForest
  | .nil => .nil
  | .cons c cs =>
    if shouldInclude cfg c then
      let sub := manifestRecursively cfg c
      let entry := ManifestNode.mk c.kind c.name
        (if c.kind = Kind.MODULE then some c.title else none) c.url
        (if sub.isNil then none else some sub)
      .cons entry (manifestChildren cfg cs)
    else manifestChildren cfg cs
end

/-- `Generator::manifest`: build the manifest data, then write it to
`outputDir/manifest.json`, failing hard when the file does not open. -/
def manifest (cfg : Config) (openOk : String → Bool) (root : Node) :
    Except String (String × ManifestForest) :=
  let data := manifestRecursively cfg root
  let path := pathJoin cfg.outputDir "manifest.json"
  if openOk path then .ok (path, data) else .error (openFailureMessage path)

/-- The records built by `Generator::buildIndexRecursively`, as a forest in
first-child/next-sibling form: each `cons` is one record carrying the node's
name (the sort key), its refid standing for the converted data record, its
nested children, and the following sibling records. -/
inductive IndexForest where
  | nil
  | cons (name refid : String) (children : IndexForest) (tail : IndexForest)

/-- Insertion into a forest sorted by name ascending, modelling the
`std::sort` by `getName() <` of `Generator::buildIndexRecursively`. -/
def insertByName (en er : String) (ec : IndexForest) : IndexForest → IndexForest
  | .nil => .cons en er ec .nil
  | .cons fn fr fc t =>
    if en < fn then .cons en er ec (.cons fn fr fc t)
    else .cons fn fr fc (insertByName en er ec t)

def sortForest : IndexForest → IndexForest
  | .nil => .nil
  | .cons n r c t => insertByName n r c (sortForest t)

mutual
/-- `Generator::buildIndexRecursively` on one node. The source first sorts the
eligible children by name and then converts each one; since conversion is
per node, collecting the converted records first and sorting them by the same
key yields the identical forest. -/
def buildIndexNode (cfg : Config) (filter : List Kind) : Node → IndexForest
  | .mk _ _ _ _ _ _ _ _ children => sortForest (buildIndexChildren cfg filter children)

/-- Eligibility loop of `Generator::buildIndexRecursively`: a child is kept
iff its kind is in `filter` and `shouldInclude` holds. -/
def buildIndexChildren (cfg : Config) (filter : List Kind) : NodeList → IndexForest
  | .nil => .nil
  | .cons c cs =>
    if filter.contains c.kind && shouldInclude cfg c then
      .cons c.name c.refid (buildIndexNode cfg filter c)
        (buildIndexChildren cfg filter cs)
    else buildIndexChildren cfg filter cs
end

/-- `Generator::buildIndexRecursively` as called, with the `skip` parameter it
receives: the source threads `skip` through every recursive call but never
consults it. -/
def buildIndexRecursively (cfg : Config) (filter skip : List Kind) (node : Node) :
    IndexForest :=
  buildIndexNode cfg filter node

/-- The refids of the top-level records of an index forest. -/
def IndexForest.refids : IndexForest → List String
  | .nil => []
  | .cons _ r _ t => r :: t.refids

/-- The placeholder token scanned for by `Generator::summary`. -/
def placeholderPattern : List Char := "\x7b\x7bdoxygen\x7d\x7d".data

/-- The `compare` helper of `Generator::summary`: walks both strings until one
is exhausted, so it also accepts a template suffix that is a proper prefix of
the pattern. -/
def matchesAt : List Char → List Char → Bool
  | _, [] => true
  | [], _ :: _ => true
  | a :: as, b :: bs => a == b && matchesAt as bs

/-- The scanning loop of `Generator::summary`: returns the placeholder offset
(the template length when absent) and the run of spaces immediately before
it. -/
def scanTemplate : List Char → Nat → Nat → Nat × Nat
  | [], i, ind => (i, ind)
  | c :: rest, i, ind =>
    if matchesAt (c :: rest) placeholderPattern then (i, ind)
    else scanTemplate rest (i + 1) (if c = ' ' then ind + 1 else 0)

/-- One summary section: the derived index title and index file name (the
results of `typeToIndexTitle` / `typeToIndexName`, which live outside the core
sources), and the section's filter/skip pair. -/
structure SummarySection where
  title : String
  indexName : String
  filter : List Kind
  skip : List Kind

def stringOfSpaces (n : Nat) : String :=
  String.mk (List.replicate n ' ')

mutual
/-- `Generator::summaryRecursive` on one node: walk its children. -/
def summaryRecursive (cfg : Config) (find : String → Option FolderCategory)
    (indent : Nat) (folderName : String) (filter skip : List Kind) :
    WikiState → Node → String × WikiState
  | st, .mk _ _ _ _ _ _ _ _ children =>
    summaryChildren cfg find indent folderName filter skip st children

/-- The loop of `Generator::summaryRecursive`: the designated main page is
skipped entirely; a child inside `filter` emits its bullet line (when outside
`skip` and included) and is recursed into at the same indent; the child link
extension is the literal `.md` of the source. -/
def summaryChildren (cfg : Config) (find : String → Option FolderCategory)
    (indent : Nat) (folderName : String) (filter skip : List Kind) :
    WikiState → NodeList → String × WikiState
  | st, .nil => ("", st)
  | st, .cons c cs =>
    if c.kind == Kind.PAGE && c.refid == cfg.mainPageName then
      summaryChildren cfg find indent folderName filter skip st cs
    else if filter.contains c.kind then
      let own :=
        if !(skip.contains c.kind) && shouldInclude cfg c then
          let fnst := chooseFileName cfg find c st
          (stringOfSpaces indent ++ "* [" ++ c.name ++ "](" ++ folderName ++ "/" ++
            fnst.1 ++ ".md)\n", fnst.2)
        else ("", st)
      let sub := summaryRecursive cfg find indent folderName filter skip own.2 c
      let rest := summaryChildren cfg find indent folderName filter skip sub.2 cs
      (own.1 ++ sub.1 ++ rest.1, rest.2)
    else summaryChildren cfg find indent folderName filter skip st cs
end

/-- The section loop of `Generator::summary`: one bullet for the section's
index page at the inferred indent, then the recursive block at indent + 2. -/
def summarySections (cfg : Config) (find : String → Option FolderCategory)
    (indent : Nat) (root : Node) :
    WikiState → List SummarySection → String × WikiState
  | st, [] => ("", st)
  | st, sec :: rest =>
    let line := stringOfSpaces indent ++ "* [" ++ sec.title ++ "](" ++
      sec.indexName ++ "." ++ cfg.fileExt ++ ")\n"
    let block := summaryRecursive cfg find (indent + 2) sec.title sec.filter sec.skip st root
    let tail := summarySections cfg find indent root block.2 rest
    (line ++ block.1 ++ tail.1, tail.2)

/-- `Generator::summary`: locate the placeholder and the space run before it,
build the section blocks, strip that run from the block's front, and splice
into the template text. The source's `ss.str().substr(indent)` presupposes
the generated block is at least `indent` long. -/
def summary (cfg : Config) (find : String → Option FolderCategory)
    (tmpl : String) (sections : List SummarySection) (root : Node)
    (st : WikiState) : String :=
  let scan := scanTemplate tmpl.data 0 0
  let offset := scan.1
  let indent := scan.2
  let ss := (summarySections cfg find indent root st sections).1
  let before := String.mk (tmpl.data.take offset)
  let middle := String.mk (ss.data.drop indent)
  let after :=
    if offset + placeholderPattern.length < tmpl.data.length then
      String.mk (tmpl.data.drop (offset + placeholderPattern.length))
    else ""
  before ++ middle ++ after

/-! ## Decimal printing: `Nat.repr` is injective

The suffix probe builds candidates with `std::to_string`, embedded as
`Nat.repr`.  Distinct suffixes give distinct candidate names, which the
collision-freedom argument below depends on. -/

/-- Decimal digit list of a natural number, most significant digit first. -/
def digitsList (n : Nat) : List Char :=
  if n < 10 then [Nat.digitChar n]
  else digitsList (n / 10) ++ [Nat.digitChar (n % 10)]
termination_by n
decreasing_by exact Nat.div_lt_self (by omega) (by omega)

theorem toDigitsCore_eq_digitsList :
    ∀ fuel n acc, n < fuel →
      Nat.toDigitsCore 10 fuel n acc = digitsList n ++ acc := by
  intro fuel
  induction fuel with
  | zero => intro n acc h; omega
  | succ f ih =>
    intro n acc h
    rw [Nat.toDigitsCore]
    by_cases h10 : n / 10 = 0
    · have hlt : n < 10 := by omega
      have hmod : n % 10 = n := Nat.mod_eq_of_lt hlt
      simp only [h10, if_true, hmod]
      rw [digitsList, if_pos hlt]
      rfl
    · have hdiv : n / 10 < f := by omega
      simp only [h10, if_false]
      rw [ih (n / 10) _ hdiv]
      conv_rhs => rw [digitsList]
      rw [if_neg (by omega), List.append_assoc]
      rfl

theorem repr_eq_digitsList (n : Nat) : Nat.repr n = String.mk (digitsList n) := by
  unfold Nat.repr Nat.toDigits
  rw [toDigitsCore_eq_digitsList (n + 1) n [] (by omega), List.append_nil]
  rfl

/-- Numeric value of a decimal digit character. -/
def digitVal (c : Char) : Nat := c.toNat - 48

/-- Read a decimal digit list back into a number. -/
def parseDigits (l : List Char) : Nat :=
  l.foldl (fun a c => 10 * a + digitVal c) 0

theorem digitVal_digitChar : ∀ d, d < 10 → digitVal (Nat.digitChar d) = d := by decide

theorem parseDigits_append_last (l : List Char) (c : Char) :
    parseDigits (l ++ [c]) = 10 * parseDigits l + digitVal c := by
  unfold parseDigits
  rw [List.foldl_append]
  rfl

theorem parseDigits_digitsList (n : Nat) : parseDigits (digitsList n) = n := by
  induction n using Nat.strong_induction_on with
  | _ n ih =>
    rw [digitsList]
    by_cases h : n < 10
    · rw [if_pos h]
      show 10 * 0 + digitVal (Nat.digitChar n) = n
      rw [digitVal_digitChar n h]
      omega
    · rw [if_neg h]
      rw [parseDigits_append_last]
      rw [ih (n / 10) (Nat.div_lt_self (by omega) (by omega))]
      rw [digitVal_digitChar (n % 10) (Nat.mod_lt n (by omega))]
      omega

theorem digitsList_injective : Function.Injective digitsList := by
  intro m n h
  rw [← parseDigits_digitsList m, ← parseDigits_digitsList n, h]

theorem natRepr_injective : Function.Injective Nat.repr := by
  intro m n h
  rw [repr_eq_digitsList, repr_eq_digitsList] at h
  apply digitsList_injective
  injection h

theorem candName_injective (base : String) :
    Function.Injective (candName base) := by
  intro s t h
  unfold candName at h
  have h2 : (base ++ "-" ++ Nat.repr s).data = (base ++ "-" ++ Nat.repr t).data := by
    rw [h]
  rw [String.data_append, String.data_append] at h2
  have hrepr : (Nat.repr s).data = (Nat.repr t).data :=
    List.append_cancel_left h2
  apply natRepr_injective
  exact String.ext hrepr

/-! ## Collision-freedom of the suffix probe -/

theorem isDuplicate_mem (find : String → Option FolderCategory) (st : WikiState)
    (name : String) (cat : FolderCategory)
    (h : isDuplicate find st name cat = true) : name ∈ st.map Prod.snd := by
  unfold isDuplicate at h
  rw [List.any_eq_true] at h
  obtain ⟨e, he, hp⟩ := h
  rw [Bool.and_eq_true, beq_iff_eq] at hp
  exact List.mem_map.2 ⟨e, he, hp.1⟩

theorem probeSuffix_free (find : String → Option FolderCategory) (st : WikiState)
    (cat : FolderCategory) (base : String) :
    ∀ fuel s, (∃ i, i < fuel ∧ isDuplicate find st (candName base (s + i)) cat = false) →
      isDuplicate find st (probeSuffix find st cat base fuel s) cat = false := by
  intro fuel
  induction fuel with
  | zero =>
    intro s h
    obtain ⟨i, hi, _⟩ := h
    omega
  | succ f ih =>
    intro s h
    rw [probeSuffix]
    by_cases hd : isDuplicate find st (candName base s) cat
    · simp only [hd, if_true]
      apply ih
      obtain ⟨i, hi, hfree⟩ := h
      cases i with
      | zero =>
        rw [Nat.add_zero] at hfree
        rw [hd] at hfree
        exact absurd hfree (by simp)
      | succ j =>
        refine ⟨j, by omega, ?_⟩
        rw [show s + 1 + j = s + (j + 1) by omega]
        exact hfree
    · simp only [Bool.not_eq_true] at hd
      simp only [hd, if_false]
      exact hd

/-- Pigeonhole: the record holds `st.length` names, while `st.length + 1`
consecutive suffixes give pairwise-distinct candidates, so some candidate
within reach of the probe's fuel is free. -/
theorem exists_free_suffix (find : String → Option FolderCategory) (st : WikiState)
    (cat : FolderCategory) (base : String) (s : Nat) :
    ∃ i, i < st.length + 1 ∧ isDuplicate find st (candName base (s + i)) cat = false := by
  by_contra hcon
  push_neg at hcon
  have hdup : ∀ i, i ≤ st.length → candName base (s + i) ∈ st.map Prod.snd := by
    intro i hi
    apply isDuplicate_mem find st _ cat
    have := hcon i (by omega)
    cases hx : isDuplicate find st (candName base (s + i)) cat
    · exact absurd hx this
    · rfl
  have hinj : Set.InjOn (fun i => candName base (s + i)) (Finset.range (st.length + 1)) := by
    intro i _ j _ hij
    have := candName_injective base hij
    omega
  have hcard : (Finset.range (st.length + 1)).card ≤ ((st.map Prod.snd).toFinset).card := by
    apply Finset.card_le_card_of_injOn
    · intro i hi
      rw [List.mem_toFinset]
      exact hdup i (by simpa using Nat.lt_succ_iff.mp (Finset.mem_range.mp hi))
    · exact hinj
  have hle : ((st.map Prod.snd).toFinset).card ≤ st.length := by
    calc ((st.map Prod.snd).toFinset).card ≤ (st.map Prod.snd).length :=
          List.toFinset_card_le _
      _ = st.length := List.length_map _ _
  rw [Finset.card_range] at hcard
  omega

/-- A freshly resolved name never collides with a same-category entry already
in the record. -/
theorem getWikiFileName_not_dup (find : String → Option FolderCategory) (node : Node)
    (st : WikiState) (hnone : lookupName st node.refid = none) :
    isDuplicate find st (getWikiFileName find node st).1 node.category = false := by
  unfold getWikiFileName
  rw [hnone]
  simp only
  by_cases hd : isDuplicate find st (wikiCandidate node) node.category
  · simp only [hd, if_true]
    exact probeSuffix_free find st node.category (wikiCandidate node) (st.length + 1) 1
      (exists_free_suffix find st node.category (wikiCandidate node) 1)
  · simp only [Bool.not_eq_true] at hd
    simp only [hd, if_false]
    exact hd

/-- The uniqueness invariant of the naming record: no two entries whose nodes
share a category (as reported by `find`) carry the same resolved name. -/
def NamesOK (find : String → Option FolderCategory) (st : WikiState) : Prop :=
  st.Pairwise (fun e1 e2 => e1.2 = e2.2 → ¬((find e1.1).isSome ∧ find e1.1 = find e2.1))

theorem lookupName_append_self (st : WikiState) (r n : String)
    (h : lookupName st r = none) : lookupName (st ++ [(r, n)]) r = some n := by
  unfold lookupName at h ⊢
  rw [List.find?_append]
  rw [Option.map_eq_none'] at h
  rw [h]
  simp

theorem lookupName_append_stable (st : WikiState) (e : String × String) (r w : String)
    (h : lookupName st r = some w) : lookupName (st ++ [e]) r = some w := by
  unfold lookupName at h ⊢
  rw [List.find?_append]
  cases hf : st.find? (fun e => e.1 == r) with
  | none => rw [hf] at h; simp at h
  | some p => rw [hf] at h; simp [hf, h]

/-! ## Character-set lemmas for the naming normalizer -/

/-- The characters `Utils::wikiSafeFileName` may emit: alphanumerics, the four
kept punctuation characters, and the `%`-escapes (whose hex digits are
alphanumeric). -/
def permittedChar (c : Char) : Prop :=
  c.isAlphanum = true ∨ c = '_' ∨ c = '.' ∨ c = '+' ∨ c = '-' ∨ c = '%'

theorem encodeChar_permitted : ∀ c d, d ∈ Utils.encodeChar c → permittedChar d := by
  intro c d hd
  unfold Utils.encodeChar at hd
  split_ifs at hd with h1 h2 h3 h4 h5 h6 h7 h8 h9
  · rw [List.mem_singleton] at hd
    subst hd
    simp only [Bool.or_eq_true, decide_eq_true_eq] at h1
    unfold permittedChar
    tauto
  · rw [List.mem_singleton] at hd
    subst hd
    unfold permittedChar
    tauto
  all_goals first
    | (simp only [List.mem_cons, List.mem_singleton, List.not_mem_nil, or_false] at hd
       rcases hd with h | h | h <;> subst h <;> unfold permittedChar <;> simp)
    | simp at hd

theorem mem_stripLeadingDot (l : List Char) (d : Char)
    (h : d ∈ Utils.stripLeadingDot l) : d ∈ l := by
  unfold Utils.stripLeadingDot at h
  split_ifs at h with h1
  · exact (List.tail_sublist l).mem h
  · exact h

theorem mem_stripTrailingDot (l : List Char) (d : Char)
    (h : d ∈ Utils.stripTrailingDot l) : d ∈ l := by
  unfold Utils.stripTrailingDot at h
  split_ifs at h with h1
  · exact (List.dropLast_sublist l).mem h
  · exact h

theorem mem_truncate200 (l : List Char) (d : Char)
    (h : d ∈ Utils.truncate200 l) : d ∈ l := by
  unfold Utils.truncate200 at h
  split_ifs at h with h1
  · exact (List.take_sublist _ l).mem h
  · exact h

theorem length_truncate200 (l : List Char) : (Utils.truncate200 l).length ≤ 200 := by
  unfold Utils.truncate200
  split_ifs with h
  · simp [List.length_take]
  · omega

/-! ## The stripNamespace loop on separator-free segments -/

/-- Characters that neither change the nesting depth nor act as scope
separators in `Utils::stripNamespace`. -/
def notSpecial (c : Char) : Prop :=
  c ∉ (['(', '[', '<', ')', ']', '>', '.', ':'] : List Char)

instance (c : Char) : Decidable (notSpecial c) := by
  unfold notSpecial
  infer_instance

theorem stripNamespaceLoop_clean :
    ∀ (cs rest : List Char) (i : Int) (cnt : Nat) (off : Option Nat),
      (∀ c ∈ cs, notSpecial c) →
      Utils.stripNamespaceLoop (cs ++ rest) i cnt off =
        Utils.stripNamespaceLoop rest i (cnt + cs.length) off := by
  intro cs
  induction cs with
  | nil => intro rest i cnt off _; simp
  | cons c cs' ih =>
    intro rest i cnt off hclean
    have hc : notSpecial c := hclean c (List.mem_cons_self _ _)
    unfold notSpecial at hc
    simp only [List.mem_cons, List.not_mem_nil, or_false, not_or] at hc
    obtain ⟨hp, hb, ha, hq, hk, hg, hd, hcol⟩ := hc
    rw [List.cons_append, Utils.stripNamespaceLoop]
    rw [if_neg (by tauto), if_neg (by tauto), if_neg (by tauto)]
    rw [ih rest i (cnt + 1) off (fun c hm => hclean c (List.mem_cons_of_mem _ hm))]
    congr 1
    simp [List.length_cons]
    omega

/-! ## Index forest: sorting preserves membership -/

theorem refids_insertByName (en er : String) (ec : IndexForest) :
    ∀ (fo : IndexForest) (r : String),
      r ∈ (insertByName en er ec fo).refids ↔ r = er ∨ r ∈ fo.refids := by
  intro fo
  induction fo with
  | nil =>
    intro r
    simp [insertByName, IndexForest.refids]
  | cons fn fr fc t ihc iht =>
    intro r
    rw [insertByName]
    split_ifs with h
    · simp [IndexForest.refids]
    · simp only [IndexForest.refids, List.mem_cons, iht]
      tauto

theorem refids_sortForest :
    ∀ (fo : IndexForest) (r : String),
      r ∈ (sortForest fo).refids ↔ r ∈ fo.refids := by
  intro fo
  induction fo with
  | nil => intro r; simp [sortForest]
  | cons en er ec t ihc iht =>
    intro r
    rw [sortForest, refids_insertByName]
    simp only [IndexForest.refids, List.mem_cons, iht]

/-! ## JSON pass: open failures are the only errors -/

theorem jsonDispatch_of_all_ok (cfg : Config) (find : String → Option FolderCategory)
    (openOk : String → Bool) (h : ∀ p, openOk p = true) (st : WikiState) (n : Node) :
    ∃ out, jsonDispatch cfg find openOk st n = .ok out := by
  simp only [jsonDispatch]
  rw [h]
  exact ⟨_, rfl⟩

theorem jsonDispatch_error (cfg : Config) (find : String → Option FolderCategory)
    (openOk : String → Bool) (st : WikiState) (n : Node) (msg : String)
    (h : jsonDispatch cfg find openOk st n = .error msg) :
    ∃ path, openOk path = false ∧ msg = openFailureMessage path := by
  simp only [jsonDispatch] at h
  split_ifs at h with ho
  rw [Bool.not_eq_true] at ho
  refine ⟨_, ho, ?_⟩
  injection h with h2
  exact h2.symm

mutual
theorem jsonRecursively_all_ok (cfg : Config) (find : String → Option FolderCategory)
    (openOk : String → Bool) (filter skip : List Kind) (h : ∀ p, openOk p = true) :
    ∀ (st : WikiState) (n : Node),
      ∃ out, jsonRecursively cfg find openOk filter skip st n = .ok out
  | st, .mk r nm t q u k c fd children => by
    rw [jsonRecursively]
    exact jsonChildren_all_ok cfg find openOk filter skip h st children

theorem jsonChildren_all_ok (cfg : Config) (find : String → Option FolderCategory)
    (openOk : String → Bool) (filter skip : List Kind) (h : ∀ p, openOk p = true) :
    ∀ (st : WikiState) (nl : NodeList),
      ∃ out, jsonChildren cfg find openOk filter skip st nl = .ok out
  | st, .nil => ⟨(st, []), rfl⟩
  | st, .cons c cs => by
    rw [jsonChildren]
    by_cases hf : filter.contains c.kind = true
    · rw [if_pos hf]
      by_cases he : (!(skip.contains c.kind) && shouldInclude cfg c) = true
      · rw [if_pos he]
        obtain ⟨own, hown⟩ := jsonDispatch_of_all_ok cfg find openOk h st c
        simp only [hown]
        obtain ⟨sub, hsub⟩ := jsonRecursively_all_ok cfg find openOk filter skip h own.1 c
        simp only [hsub]
        obtain ⟨rest, hrest⟩ := jsonChildren_all_ok cfg find openOk filter skip h sub.1 cs
        simp only [hrest]
        exact ⟨_, rfl⟩
      · rw [if_neg he]
        obtain ⟨sub, hsub⟩ := jsonRecursively_all_ok cfg find openOk filter skip h st c
        simp only [hsub]
        obtain ⟨rest, hrest⟩ := jsonChildren_all_ok cfg find openOk filter skip h sub.1 cs
        simp only [hrest]
        exact ⟨_, rfl⟩
    · rw [if_neg hf]
      exact jsonChildren_all_ok cfg find openOk filter skip h st cs
end

mutual
theorem jsonRecursively_error (cfg : Config) (find : String → Option FolderCategory)
    (openOk : String → Bool) (filter skip : List Kind) :
    ∀ (st : WikiState) (n : Node) (msg : String),
      jsonRecursively cfg find openOk filter skip st n = .error msg →
      ∃ path, openOk path = false ∧ msg = openFailureMessage path
  | st, .mk r nm t q u k c fd children, msg => fun h => by
    rw [jsonRecursively] at h
    exact jsonChildren_error cfg find openOk filter skip st children msg h

theorem jsonChildren_error (cfg : Config) (find : String → Option FolderCategory)
    (openOk : String → Bool) (filter skip : List Kind) :
    ∀ (st : WikiState) (nl : NodeList) (msg : String),
      jsonChildren cfg find openOk filter skip st nl = .error msg →
      ∃ path, openOk path = false ∧ msg = openFailureMessage path
  | st, .nil, msg => fun h => by
    rw [jsonChildren] at h
    exact Except.noConfusion h
  | st, .cons c cs, msg => fun h => by
    rw [jsonChildren] at h
    by_cases hf : filter.contains c.kind = true
    · rw [if_pos hf] at h
      cases hd : (if !(skip.contains c.kind) && shouldInclude cfg c then
          jsonDispatch cfg find openOk st c else .ok (st, [])) with
      | error e =>
        simp only [hd] at h
        injection h with h2
        subst h2
        by_cases he : (!(skip.contains c.kind) && shouldInclude cfg c) = true
        · rw [if_pos he] at hd
          exact jsonDispatch_error cfg find openOk st c e hd
        · rw [if_neg he] at hd
          exact Except.noConfusion hd
      | ok own =>
        simp only [hd] at h
        cases hsub : jsonRecursively cfg find openOk filter skip own.1 c with
        | error e =>
          simp only [hsub] at h
          injection h with h2
          subst h2
          exact jsonRecursively_error cfg find openOk filter skip own.1 c e hsub
        | ok sub =>
          simp only [hsub] at h
          cases hrest : jsonChildren cfg find openOk filter skip sub.1 cs with
          | error e =>
            simp only [hrest] at h
            injection h with h2
            subst h2
            exact jsonChildren_error cfg find openOk filter skip sub.1 cs e hrest
          | ok rest =>
            simp only [hrest] at h
            exact Except.noConfusion h
    · rw [if_neg hf] at h
      exact jsonChildren_error cfg find openOk filter skip st cs msg h
end

/-! ## Sample data for the concrete claims -/

/-- A sample run configuration: wiki naming off, folders off, no
file-extension allow-list. -/
def cfgS : Config := {
  fileExt := "md"
  outputDir := "out"
  useFolders := false
  useWikiNamingConventions := false
  mainPageName := "indexpage"
  filesFilter := []
  folderNames := fun _ => "Folder"
  templateKindStruct := "kind_struct"
  templateKindInterface := "kind_interface"
  templateKindUnion := "kind_union"
  templateKindClass := "kind_class"
  templateKindNamespace := "kind_namespace"
  templateKindGroup := "kind_group"
  templateKindDir := "kind_dir"
  templateKindFile := "kind_file"
  templateKindPage := "kind_page"
  templateKindExample := "kind_example"
  templateKindJavaEnum := "kind_javaenum" }

def fndNone : String → Option FolderCategory := fun _ => none

/-- Upstream lookup for the two colliding report files. -/
def findReport : String → Option FolderCategory := fun r =>
  if r = "file-r1" then some .FILES else if r = "file-r2" then some .FILES else none

def reportNode1 : Node := .mk "file-r1" "Report.md" "" "Report.md" "" .FILE .FILES true .nil

def reportNode2 : Node := .mk "file-r2" "Report.md" "" "Report.md" "" .FILE .FILES true .nil

def nodeB2 : Node := .mk "B" "B" "" "" "" .CLASS .CLASSES false .nil

/-- A PAGE node (outside a classes-only filter) holding an eligible CLASS child. -/
def nodeA2 : Node := .mk "A" "A" "" "" "" .PAGE .PAGES false (.cons nodeB2 .nil)

def root2 : Node := .mk "root" "root" "" "" "" .DIR .FILES false (.cons nodeA2 .nil)

/-- Upstream lookup for one CLASSES entry and one FILES node with equal names. -/
def find3 : String → Option FolderCategory := fun r =>
  if r = "old" then some .CLASSES else if r = "new" then some .FILES else none

def node3 : Node := .mk "new" "X" "" "X" "" .FILE .FILES true .nil

def st3 : WikiState := [("old", "X")]

def nodeIdx : Node := .mk "A" "A" "" "" "" .CLASS .CLASSES false .nil

def rootIdx : Node := .mk "r" "r" "" "" "" .DIR .FILES false (.cons nodeIdx .nil)

def nodeX : Node := .mk "X" "X" "" "" "" .MODULE .MODULES false .nil

def rootX : Node := .mk "root" "root" "" "" "" .DIR .FILES false (.cons nodeX .nil)

def secGroup : SummarySection :=
  { title := "Group", indexName := "Group", filter := [Kind.MODULE], skip := [] }

def tmplS : String := "before\n  \x7b\x7bdoxygen\x7d\x7d\nafter"

/-! ## Claim C1 -/

/-- Claim C1, counterexample: resolving the second `Report.md` FILE node of
the same category does not yield `Report-1.md`; the suffix is appended after
the full candidate, extension included. -/
theorem claimC1_counterexample :
    (getWikiFileName findReport reportNode1 []).1 = "Report.md" ∧
    (getWikiFileName findReport reportNode2
      (getWikiFileName findReport reportNode1 []).2).1 ≠ "Report-1.md" := by
  decide

/-- Claim C1, amended: for two FILE nodes both named `Report.md` sharing one
category, the first resolves to `Report.md` and the second to `Report.md-1`,
the `-1` being appended to the whole base candidate in insertion order. -/
theorem claimC1_prop :
    (getWikiFileName findReport reportNode1 []).1 = "Report.md" ∧
    (getWikiFileName findReport reportNode2
      (getWikiFileName findReport reportNode1 []).2).1 = "Report.md-1" := by
  decide

/-! ## Claim C3 -/

/-- Claim C3: resolving one node preserves the naming-record invariant that
no two distinct same-category entries share a resolved name, provided the
upstream lookup reports the node's own category; and when no same-category
entry carries the candidate name, the candidate is stored unsuffixed, so
equal names across different categories never trigger suffixing. -/
theorem claimC3_prop (find : String → Option FolderCategory) (node : Node)
    (st : WikiState) (hInv : NamesOK find st)
    (hfind : find node.refid = some node.category) :
    NamesOK find (getWikiFileName find node st).2 ∧
      (lookupName st node.refid = none →
        isDuplicate find st (wikiCandidate node) node.category = false →
        (getWikiFileName find node st).1 = wikiCandidate node) := by
  constructor
  · cases hmemo : lookupName st node.refid with
    | some w =>
      unfold getWikiFileName
      rw [hmemo]
      exact hInv
    | none =>
      have hfree := getWikiFileName_not_dup find node st hmemo
      unfold getWikiFileName at hfree ⊢
      rw [hmemo] at hfree ⊢
      simp only at hfree ⊢
      unfold NamesOK
      rw [List.pairwise_append]
      refine ⟨hInv, List.pairwise_singleton _ _, ?_⟩
      intro e he e' he'
      rw [List.mem_singleton] at he'
      subst he'
      intro heq
      intro hpair
      obtain ⟨hsome, hcat⟩ := hpair
      simp only at heq hcat
      rw [hfind] at hcat
      unfold isDuplicate at hfree
      rw [List.any_eq_false] at hfree
      have hne := hfree e he
      rw [Bool.and_eq_true, beq_iff_eq, beq_iff_eq] at hne
      exact hne ⟨heq, hcat⟩
  · intro hnone hnd
    unfold getWikiFileName
    rw [hnone]
    simp only
    rw [if_neg (by simp [hnd])]

/-- Claim C3, witness: starting from a record holding `X` for a CLASSES node,
resolving a FILES node whose candidate is also `X` keeps the invariant and
stores the unsuffixed name `X`. -/
theorem claimC3_witness :
    NamesOK find3 (getWikiFileName find3 node3 st3).2 ∧
      (getWikiFileName find3 node3 st3).1 = wikiCandidate node3 := by
  have h := claimC3_prop find3 node3 st3
    (by unfold NamesOK; exact List.pairwise_singleton _ _) (by decide)
  exact ⟨h.1, h.2 (by decide) (by decide)⟩

/-! ## Claim C7 -/

/-- Claim C7: wiki-name resolution is idempotent — resolving the same node
again returns the same name and leaves the record unchanged — and an entry
already stored for any identity survives any later resolution unchanged. -/
theorem claimC7_prop (find : String → Option FolderCategory) (node : Node)
    (st : WikiState) :
    getWikiFileName find node (getWikiFileName find node st).2 =
        getWikiFileName find node st ∧
      ∀ (node' : Node) (r w : String), lookupName st r = some w →
        lookupName (getWikiFileName find node' st).2 r = some w := by
  constructor
  · cases hmemo : lookupName st node.refid with
    | some w =>
      have hpair : getWikiFileName find node st = (w, st) := by
        unfold getWikiFileName
        rw [hmemo]
      rw [hpair]
      unfold getWikiFileName
      rw [hmemo]
    | none =>
      have hpair : getWikiFileName find node st =
          ((if isDuplicate find st (wikiCandidate node) node.category then
              probeSuffix find st node.category (wikiCandidate node) (st.length + 1) 1
            else wikiCandidate node),
           st ++ [(node.refid,
            (if isDuplicate find st (wikiCandidate node) node.category then
              probeSuffix find st node.category (wikiCandidate node) (st.length + 1) 1
            else wikiCandidate node))]) := by
        unfold getWikiFileName
        rw [hmemo]
      rw [hpair]
      unfold getWikiFileName
      rw [lookupName_append_self st node.refid _ hmemo]
  · intro node' r w h
    cases hmemo : lookupName st node'.refid with
    | some w' =>
      unfold getWikiFileName
      rw [hmemo]
      exact h
    | none =>
      unfold getWikiFileName
      rw [hmemo]
      simp only
      exact lookupName_append_stable st _ r w h

/-- Claim C7, witness: idempotence and stability at a concrete record. -/
theorem claimC7_witness :
    getWikiFileName find3 node3 (getWikiFileName find3 node3 st3).2 =
        getWikiFileName find3 node3 st3 ∧
      lookupName (getWikiFileName find3 node3 st3).2 "old" = some "X" := by
  have h := claimC7_prop find3 node3 st3
  exact ⟨h.1, h.2 node3 "old" "X" (by decide)⟩

/-! ## Claim C9 -/

/-- Claim C9: the read-only lookup by refid is total — with no entry for the
identity it returns the identity itself. -/
theorem claimC9_prop (st : WikiState) (refid : String)
    (h : lookupName st refid = none) :
    getWikiFileNameForRefid st refid = refid := by
  unfold getWikiFileNameForRefid
  rw [h]

/-- Claim C9, witness: an unmapped refid comes back unchanged. -/
theorem claimC9_witness :
    lookupName [("x", "y")] "z" = none ∧
      getWikiFileNameForRefid [("x", "y")] "z" = "z" :=
  ⟨by decide, claimC9_prop [("x", "y")] "z" (by decide)⟩

/-! ## Claim C10 -/

/-- Claim C10: a single colon at top-level nesting depth acts as a scope
separator: for separator-free segments `a` and `b`, stripping the namespace
from `a : b` (one colon, not two) returns `b`. -/
theorem claimC10_prop (a b : String)
    (ha : ∀ c ∈ a.data, notSpecial c) (hb : ∀ c ∈ b.data, notSpecial c) :
    Utils.stripNamespace (a ++ ":" ++ b) = b := by
  unfold Utils.stripNamespace
  have hdata : (a ++ ":" ++ b).data = a.data ++ (':' :: b.data) := by
    rw [String.data_append, String.data_append]
    simp
  rw [hdata]
  rw [stripNamespaceLoop_clean a.data _ 0 0 none ha]
  rw [Utils.stripNamespaceLoop]
  rw [if_neg (by simp), if_neg (by simp), if_pos (by simp)]
  have hb' : Utils.stripNamespaceLoop b.data 0 (0 + a.data.length + 1)
      (if (0 : Int) = 0 then some (0 + a.data.length + 1) else none) =
      some (a.data.length + 1) := by
    rw [if_pos rfl]
    conv_lhs => rw [show b.data = b.data ++ [] from (List.append_nil _).symm]
    rw [stripNamespaceLoop_clean b.data [] 0 _ _ hb]
    rw [Utils.stripNamespaceLoop]
    congr 1
    omega
  rw [hb']
  show String.mk ((a.data ++ (':' :: b.data)).drop (a.data.length + 1)) = b
  have hdrop : (a.data ++ (':' :: b.data)).drop (a.data.length + 1) = b.data := by
    rw [show a.data ++ (':' :: b.data) = (a.data ++ [':']) ++ b.data by simp]
    rw [show a.data.length + 1 = (a.data ++ [':']).length by simp]
    exact List.drop_left _ _
  rw [hdrop]

/-- Claim C10, witness: stripping `a:b` yields `b`. -/
theorem claimC10_witness : Utils.stripNamespace "a:b" = "b" := by
  have h := claimC10_prop "a" "b" (by decide) (by decide)
  rwa [show ("a" ++ ":" ++ "b" : String) = "a:b" by rfl] at h

/-! ## Claim C2 -/

/-- Claim C2, counterexample: under filter `[CLASS]`, the render and JSON
walkers emit nothing for a tree whose only CLASS node sits below a PAGE node,
even though that CLASS descendant is eligible — the walkers do not recurse
into children of filtered-out nodes. -/
theorem claimC2_counterexample :
    printRecursively cfgS fndNone [Kind.CLASS] [] [] root2 = ([], []) ∧
    jsonRecursively cfgS fndNone (fun _ => true) [Kind.CLASS] [] [] root2 =
      .ok ([], []) ∧
    [Kind.CLASS].contains nodeB2.kind = true ∧
    ([] : List Kind).contains nodeB2.kind = false ∧
    shouldInclude cfgS nodeB2 = true :=
  ⟨rfl, rfl, by decide, by decide, by decide⟩

/-- Claim C2, amended: a child whose kind is outside the filter set is
neither dispatched nor recursed into, so none of its descendants produce
output; a child whose kind is inside the filter but also in the skip set is
not dispatched itself yet is still recursed into.  Both traversals behave
identically. -/
theorem claimC2_prop (cfg : Config) (find : String → Option FolderCategory)
    (openOk : String → Bool) (filter skip : List Kind) (st : WikiState)
    (c : Node) (cs : NodeList) :
    (filter.contains c.kind = false →
      printChildren cfg find filter skip st (.cons c cs) =
          printChildren cfg find filter skip st cs ∧
        jsonChildren cfg find openOk filter skip st (.cons c cs) =
          jsonChildren cfg find openOk filter skip st cs) ∧
    (filter.contains c.kind = true → skip.contains c.kind = true →
      printChildren cfg find filter skip st (.cons c cs) =
          ((printChildren cfg find filter skip
              (printRecursively cfg find filter skip st c).1 cs).1,
            (printRecursively cfg find filter skip st c).2 ++
              (printChildren cfg find filter skip
                (printRecursively cfg find filter skip st c).1 cs).2) ∧
        jsonChildren cfg find openOk filter skip st (.cons c cs) =
          (jsonRecursively cfg find openOk filter skip st c).bind (fun sub =>
            (jsonChildren cfg find openOk filter skip sub.1 cs).map (fun rest =>
              (rest.1, sub.2 ++ rest.2)))) := by
  constructor
  · intro h
    constructor
    · rw [printChildren, if_neg (by simpa using h)]
    · rw [jsonChildren, if_neg (by simpa using h)]
  · intro h1 h2
    constructor
    · rw [printChildren, if_pos h1]
      simp only [h2, Bool.not_true, Bool.false_and, if_false]
      simp
    · rw [jsonChildren, if_pos h1]
      simp only [h2, Bool.not_true, Bool.false_and, if_false]
      cases hsub : jsonRecursively cfg find openOk filter skip st c with
      | error e => simp [hsub, Except.bind]
      | ok sub =>
        cases hrest : jsonChildren cfg find openOk filter skip sub.1 cs with
        | error e => simp [hsub, hrest, Except.bind, Except.map]
        | ok rest => simp [hsub, hrest, Except.bind, Except.map]

/-- Claim C2, witness: the amended traversal equations at a concrete PAGE
child outside the filter and a concrete CLASS child inside both filter and
skip. -/
theorem claimC2_witness :
    printChildren cfgS fndNone [Kind.CLASS] [] [] (.cons nodeA2 .nil) =
        printChildren cfgS fndNone [Kind.CLASS] [] [] .nil ∧
      printChildren cfgS fndNone [Kind.CLASS] [Kind.CLASS] [] (.cons nodeB2 .nil) =
        ((printChildren cfgS fndNone [Kind.CLASS] [Kind.CLASS]
            (printRecursively cfgS fndNone [Kind.CLASS] [Kind.CLASS] [] nodeB2).1 .nil).1,
          (printRecursively cfgS fndNone [Kind.CLASS] [Kind.CLASS] [] nodeB2).2 ++
            (printChildren cfgS fndNone [Kind.CLASS] [Kind.CLASS]
              (printRecursively cfgS fndNone [Kind.CLASS] [Kind.CLASS] [] nodeB2).1 .nil).2) := by
  have h1 := (claimC2_prop cfgS fndNone (fun _ => true) [Kind.CLASS] [] []
    nodeA2 .nil).1 (by decide)
  have h2 := (claimC2_prop cfgS fndNone (fun _ => true) [Kind.CLASS] [Kind.CLASS] []
    nodeB2 .nil).2 (by decide) (by decide)
  exact ⟨h1.1, h2.1⟩

/-! ## Claim C4 -/

/-- Claim C4, counterexample: `wikiSafeFileName` strips only a single leading
period, so the all-periods input `...` maps to `.`, which still begins (and
ends) with a period. -/
theorem claimC4_counterexample :
    Utils.wikiSafeFileName "..." = "." ∧
      (Utils.wikiSafeFileName "...").data.head? = some '.' := by
  decide

/-- Claim C4, amended: `wikiSafeFileName` is total and returns at most 200
characters drawn from the permitted set (alphanumerics, `_ . + - %`); it
strips exactly one leading and one trailing period, so the result may still
begin or end with `.` when several periods pile up at an end. -/
theorem claimC4_prop (s : String) :
    (Utils.wikiSafeFileName s).length ≤ 200 ∧
      ∀ c ∈ (Utils.wikiSafeFileName s).data, permittedChar c := by
  unfold Utils.wikiSafeFileName
  refine ⟨length_truncate200 _, ?_⟩
  intro c hc
  have h1 := mem_truncate200 _ _ hc
  have h2 := mem_stripTrailingDot _ _ h1
  have h3 := mem_stripLeadingDot _ _ h2
  rw [List.mem_flatMap] at h3
  obtain ⟨a, _, ha⟩ := h3
  exact encodeChar_permitted a c ha

/-- Claim C4, witness: the bound and the character membership at `Report.md`. -/
theorem claimC4_witness :
    (Utils.wikiSafeFileName "Report.md").length ≤ 200 ∧ permittedChar 'R' :=
  ⟨(claimC4_prop "Report.md").1, (claimC4_prop "Report.md").2 'R' (by decide)⟩

/-! ## Claim C5 -/

/-- Claim C5, counterexample: the index builder emits a record for a CLASS
child even when CLASS is in the skip set — the skip set does not gate index
records. -/
theorem claimC5_counterexample :
    (buildIndexRecursively cfgS [Kind.CLASS] [Kind.CLASS] rootIdx).refids = ["A"] ∧
      [Kind.CLASS].contains nodeIdx.kind = true :=
  ⟨rfl, by decide⟩

/-- Claim C5, amended: the index builder's recursion is gated by the filter
set and `shouldInclude` only; the skip set it receives is ignored, so any
two skip sets produce identical indexes, and a child inside the filter with
`shouldInclude` gets a record regardless of the skip set. -/
theorem claimC5_prop :
    (∀ (cfg : Config) (f s1 s2 : List Kind) (n : Node),
      buildIndexRecursively cfg f s1 n = buildIndexRecursively cfg f s2 n) ∧
    (∀ (cfg : Config) (f s : List Kind) (rf nm ti qn u : String) (k : Kind)
        (cat : FolderCategory) (fd : Bool) (c : Node) (cs : NodeList),
      f.contains c.kind = true → shouldInclude cfg c = true →
      c.refid ∈ (buildIndexRecursively cfg f s
        (Node.mk rf nm ti qn u k cat fd (.cons c cs))).refids) := by
  constructor
  · intro cfg f s1 s2 n
    rfl
  · intro cfg f s rf nm ti qn u k cat fd c cs hf hs
    unfold buildIndexRecursively
    rw [buildIndexNode]
    rw [refids_sortForest]
    rw [buildIndexChildren]
    rw [if_pos (by rw [hf, hs]; rfl)]
    simp [IndexForest.refids]

/-- Claim C5, witness: the skip-listed CLASS child still yields a record. -/
theorem claimC5_witness :
    [Kind.CLASS].contains nodeIdx.kind = true ∧
      shouldInclude cfgS nodeIdx = true ∧
      nodeIdx.refid ∈ (buildIndexRecursively cfgS [Kind.CLASS] [Kind.CLASS]
        (Node.mk "r" "r" "" "" "" .DIR .FILES false (.cons nodeIdx .nil))).refids :=
  ⟨by decide, by decide,
    claimC5_prop.2 cfgS [Kind.CLASS] [Kind.CLASS] "r" "r" "" "" "" .DIR .FILES false
      nodeIdx .nil (by decide) (by decide)⟩

/-! ## Claim C6 -/

/-- Claim C6, counterexample: with the template `before`, newline, two
spaces, the placeholder, newline, `after`, and one Group section holding the
eligible child `X`, the summary is not the string the claim expects: the
child line is indented two further spaces and the block's trailing newline
precedes the template's own newline. -/
theorem claimC6_counterexample :
    summary cfgS fndNone tmplS [secGroup] rootX [] ≠
      "before\n  * [Group](Group.md)\n  * [X](Group/X.md)\nafter" := by
  decide

/-- Claim C6, amended: the summary equals `before`, newline, two spaces, the
Group index bullet, newline, four spaces, the bullet for `X`, newline,
newline, `after`: children sit at the inferred indent plus two, and the
generated block's final newline is followed by the template's own newline. -/
theorem claimC6_prop :
    summary cfgS fndNone tmplS [secGroup] rootX [] =
      "before\n  * [Group](Group.md)\n    * [X](Group/X.md)\n\nafter" := by
  decide

/-! ## Claim C8 -/

/-- Claim C8: in the JSON pass and the manifest writer, a failed open is the
only error source, every raised error carries exactly the attempted path in
its message, and no error is raised when every open succeeds (for the
manifest: when its own path opens). -/
theorem claimC8_prop (cfg : Config) (find : String → Option FolderCategory)
    (openOk : String → Bool) (filter skip : List Kind) :
    ((∀ p, openOk p = true) → ∀ (st : WikiState) (n : Node),
      ∃ out, jsonRecursively cfg find openOk filter skip st n = .ok out) ∧
    (∀ (st : WikiState) (n : Node) (msg : String),
      jsonRecursively cfg find openOk filter skip st n = .error msg →
      ∃ path, openOk path = false ∧ msg = openFailureMessage path) ∧
    (∀ root : Node, openOk (pathJoin cfg.outputDir "manifest.json") = false →
      manifest cfg openOk root =
        .error (openFailureMessage (pathJoin cfg.outputDir "manifest.json"))) ∧
    (∀ root : Node, openOk (pathJoin cfg.outputDir "manifest.json") = true →
      manifest cfg openOk root =
        .ok (pathJoin cfg.outputDir "manifest.json", manifestRecursively cfg root)) := by
  refine ⟨?_, ?_, ?_, ?_⟩
  · intro h st n
    exact jsonRecursively_all_ok cfg find openOk filter skip h st n
  · intro st n msg h
    exact jsonRecursively_error cfg find openOk filter skip st n msg h
  · intro root h
    simp only [manifest]
    rw [h]
    rfl
  · intro root h
    simp only [manifest]
    rw [h]
    rfl

/-- Claim C8, witness: with every open succeeding the JSON pass over the
sample tree returns ok, and the concrete error raised when no open succeeds
names the attempted path `out/A.json`. -/
theorem claimC8_witness :
    (∃ out, jsonRecursively cfgS fndNone (fun _ => true) [Kind.CLASS] [] [] rootIdx =
      .ok out) ∧
    (∃ path, (fun _ : String => false) path = false ∧
      "File out/A.json failed to open for writing" = openFailureMessage path) :=
  ⟨(claimC8_prop cfgS fndNone (fun _ => true) [Kind.CLASS] []).1
      (fun _ => rfl) [] rootIdx,
    (claimC8_prop cfgS fndNone (fun _ => false) [Kind.CLASS] []).2.1
      [] rootIdx "File out/A.json failed to open for writing" rfl⟩

end Doxybook2
